import Mathlib

/-!
Shallow embedding of the decision-coin application (React Native).

Embedded source files:
* `src/utils/storage.js` — the persistent history log (`saveFlipToHistory`,
  `getHistory`) over one fixed AsyncStorage key.
* `src/App.js` — the flip coordinator (`flipCoin`, `resetResult`,
  `toggleMode`, `getDisplayLabel`, `handleCustomSideAChange`,
  `handleCustomSideBChange`) and the accelerometer listener installed by
  `setupShakeDetection`.

Modelling conventions:
* JavaScript values that can reach `saveFlipToHistory` are modelled by
  `JsVal` (null, undefined, strings, numbers, booleans); the JSON content of
  the storage slot by the inductive `Json`.
* The AsyncStorage slot under the fixed key is a `Slot`: never written
  (`getItem` returns null), written with text that is not valid JSON
  (`JSON.parse` throws, caught), or written with a parsed JSON value.
* `Date.now()` timestamps are integers, acceleration samples are rationals.
* All functions are total: every `try/catch` in the source catches the
  throw and returns the value modelled here, so "never throws" in the
  source corresponds to totality of the embedding.
-/

namespace DecisionCoin

/-- A JSON value, as produced by `JSON.parse` / consumed by `JSON.stringify`. -/
inductive Json where
  | null
  | bool (b : Bool)
  | num (n : Int)
  | str (s : String)
  | arr (elems : List Json)
  | obj (fields : List (String × Json))

/-- A JavaScript value as it may be passed for the `side` parameter of
`saveFlipToHistory` (src/utils/storage.js line 17). -/
inductive JsVal where
  | null
  | undefined
  | str (s : String)
  | num (n : Int)
  | bool (b : Bool)
  deriving DecidableEq

/-- The content of the fixed AsyncStorage slot `@decision_coin_history`:
never written (`getItem` yields null), written with text that does not
parse as JSON, or written with a JSON value. -/
inductive Slot where
  | empty
  | invalid
  | value (j : Json)

/-- `MAX_HISTORY_ENTRIES` from src/utils/storage.js line 4. -/
def MAX_HISTORY_ENTRIES : Nat := 10

/-- JavaScript `String.prototype.trim()`: remove leading and trailing
whitespace. Defined structurally over the character list (drop the
whitespace prefix, then the whitespace suffix) so that it reduces in the
kernel. -/
def jsTrim (s : String) : String :=
  (List.rdropWhile Char.isWhitespace
    (List.dropWhile Char.isWhitespace s.toList)).asString

/-- JavaScript truthiness of a `JsVal` (`!side` is its negation). -/
def jsTruthy : JsVal → Bool
  | JsVal.null => false
  | JsVal.undefined => false
  | JsVal.str s => s ≠ ""
  | JsVal.num n => n ≠ 0
  | JsVal.bool b => b

/-- `typeof v === 'string'`. -/
def jsIsString : JsVal → Bool
  | JsVal.str _ => true
  | _ => false

/-- `getHistory` from src/utils/storage.js lines 56–79: read the slot,
return `[]` when it is unwritten (null), when `JSON.parse` throws
(caught by the surrounding try), or when the parsed value is not an
array; otherwise return the parsed array. -/
def getHistory : Slot → List Json
  | Slot.empty => []
  | Slot.invalid => []
  | Slot.value j =>
    match j with
    | Json.arr elems => elems
    | _ => []

/-- The history entry object built at src/utils/storage.js lines 26–29:
`{ side: side.trim(), timestamp: timestamp }`. -/
def mkEntry (side : String) (timestamp : Int) : Json :=
  Json.obj [("side", Json.str (jsTrim side)), ("timestamp", Json.num timestamp)]

/-- `saveFlipToHistory` from src/utils/storage.js lines 17–50.
The guard `if (!side || typeof side !== 'string') return false` rejects
exactly the arguments that are not non-empty strings, before any storage
access. Otherwise the function prepends `{side: side.trim(), timestamp}`
to `getHistory()`, keeps the first `MAX_HISTORY_ENTRIES` entries
(`slice(0, 10)`), and writes the JSON-encoded array back.
The return value is the boolean result paired with the slot after the call. -/
def saveFlipToHistory (side : JsVal) (now : Int) (slot : Slot) : Bool × Slot :=
  if ¬ (jsTruthy side) ∨ ¬ (jsIsString side) then
    (false, slot)
  else
    match side with
    | JsVal.str s =>
      let entry := mkEntry s now
      let currentHistory := getHistory slot
      let updatedHistory := entry :: currentHistory
      let trimmedHistory := updatedHistory.take MAX_HISTORY_ENTRIES
      (true, Slot.value (Json.arr trimmedHistory))
    | _ => (false, slot)

example : jsTrim "" = "" := rfl
example : jsTrim "  a b  " = "a b" := rfl
example : (saveFlipToHistory (JsVal.str "Heads") 1000 Slot.empty).2
    = Slot.value (Json.arr [mkEntry "Heads" 1000]) := rfl
example : (saveFlipToHistory (JsVal.str "") 1000 Slot.empty) = (false, Slot.empty) := rfl
example : (saveFlipToHistory (JsVal.num 7) 1000 Slot.empty) = (false, Slot.empty) := rfl

/-! ## The flip coordinator (src/App.js) -/

/-- The state owned by the `App` component of src/App.js: the React state
hooks (lines 40–44), the mutual-exclusion ref `flipInProgressRef`
(line 57), and the AsyncStorage slot that `saveFlipToHistory` writes. -/
structure AppState where
  side : Option String
  isFlipping : Bool
  flipInProgress : Bool
  isCustomMode : Bool
  customSideA : String
  customSideB : String
  slot : Slot

/-- The two points of the flip sequence of src/App.js where an uncaught
exception can reach the outer `catch` of `flipCoin` (lines 127–132): the
two `await new Promise(setTimeout ...)` suspension points. Every other
fallible step (haptics at lines 78–83 and 122–126, the history write at
lines 107–119) is wrapped in its own inner `try/catch` and cannot escape. -/
inductive FailPoint where
  | preroll
  | mainDelay

/-- The `let result` computation of `flipCoin`, src/App.js lines 88–97:
in custom mode the result is `'A'` or `'B'` — the guard ternaries at
lines 92–93 produce the literal on both branches — and in standard mode
`'Heads'` or `'Tails'`; `randomBelowHalf` is `Math.random() < 0.5`. -/
def flipResult (s : AppState) (randomBelowHalf : Bool) : String :=
  if s.isCustomMode then
    let sideA := if s.customSideA ≠ "" ∧ jsTrim s.customSideA ≠ "" then "A" else "A"
    let sideB := if s.customSideB ≠ "" ∧ jsTrim s.customSideB ≠ "" then "B" else "B"
    if randomBelowHalf then sideA else sideB
  else
    if randomBelowHalf then "Heads" else "Tails"

/-- The `let historyLabel` computation of `flipCoin`, src/App.js
lines 108–114: the trimmed custom text of the chosen side when it is
non-blank, otherwise the result itself. -/
def flipHistoryLabel (s : AppState) (result : String) : String :=
  if result = "A" ∧ s.customSideA ≠ "" ∧ jsTrim s.customSideA ≠ "" then
    jsTrim s.customSideA
  else if result = "B" ∧ s.customSideB ≠ "" ∧ jsTrim s.customSideB ≠ "" then
    jsTrim s.customSideB
  else
    result

/-- `flipCoin` from src/App.js lines 67–133.
`randomBelowHalf` is the value of `Math.random() < 0.5`; `now` the value
of `Date.now()` inside `saveFlipToHistory`; `failAt` injects an uncaught
exception at one of the two suspension points (`none` = no failure).
Guard (lines 69–71): if a flip is in progress, return with no change.
On failure the outer catch (lines 127–132) clears `isFlipping` and
`flipInProgressRef`; `side` and the storage slot are untouched.
On success (lines 88–115) the result is committed, the flags cleared,
and the resolved label appended to history (a caught haptic or history
failure has no state effect beyond the unwritten slot, which
`saveFlipToHistory` itself accounts for). -/
def flipCoin (s : AppState) (randomBelowHalf : Bool) (now : Int)
    (failAt : Option FailPoint) : AppState :=
  if s.flipInProgress || s.isFlipping then
    s
  else
    match failAt with
    | some _ =>
      { s with isFlipping := false, flipInProgress := false }
    | none =>
      let result := flipResult s randomBelowHalf
      let historyLabel := flipHistoryLabel s result
      let saved := saveFlipToHistory (JsVal.str historyLabel) now s.slot
      { s with side := some result, isFlipping := false, flipInProgress := false,
               slot := saved.2 }

/-- `resetResult` from src/App.js lines 139–151: no-op while a flip is in
progress, otherwise clear `side` (the haptic cue has no state effect and
its failure is caught). -/
def resetResult (s : AppState) : AppState :=
  if s.isFlipping || s.flipInProgress then
    s
  else
    { s with side := none }

/-- `toggleMode` from src/App.js lines 259–269: no-op while a flip is in
progress, otherwise toggle `isCustomMode` and clear `side`. -/
def toggleMode (s : AppState) : AppState :=
  if s.isFlipping || s.flipInProgress then
    s
  else
    { s with isCustomMode := !s.isCustomMode, side := none }

/-- JavaScript `text.substring(0, stop)`: the first `stop` characters. -/
def jsSubstring0 (text : String) (stop : Nat) : String :=
  (text.toList.take stop).asString

/-- `handleCustomSideAChange` from src/App.js lines 275–279:
`setCustomSideA(text.substring(0, 150))`, no trimming. -/
def handleCustomSideAChange (text : String) (s : AppState) : AppState :=
  { s with customSideA := jsSubstring0 text 150 }

/-- `handleCustomSideBChange` from src/App.js lines 281–285. -/
def handleCustomSideBChange (text : String) (s : AppState) : AppState :=
  { s with customSideB := jsSubstring0 text 150 }

/-- `getDisplayLabel` from src/App.js lines 243–254: `'Ready'` when no
result is set, the trimmed custom label when the side is `'A'`/`'B'` and
that label is non-blank, the raw side name otherwise. -/
def getDisplayLabel (s : AppState) : String :=
  match s.side with
  | none => "Ready"
  | some side =>
    if side = "A" ∧ s.customSideA ≠ "" ∧ jsTrim s.customSideA ≠ "" then
      jsTrim s.customSideA
    else if side = "B" ∧ s.customSideB ≠ "" ∧ jsTrim s.customSideB ≠ "" then
      jsTrim s.customSideB
    else
      side

/-! ## The motion trigger detector (src/App.js, `setupShakeDetection`) -/

/-- One accelerometer sample `{x, y, z}` delivered to the listener of
src/App.js line 172. The listener's `typeof` guard (lines 174–180) only
lets numeric components through, which this type enforces. -/
structure MotionSample where
  x : ℚ
  y : ℚ
  z : ℚ

/-- The refs read and written by the accelerometer listener:
`prevYRef`, `lastFlickTimeRef`, `lastShakeTimeRef` (src/App.js
lines 51–53, each initialised to 0). -/
structure DetectorState where
  prevY : ℚ
  lastFlickTime : Int
  lastShakeTime : Int

/-- The observable effect of one run of the accelerometer listener:
the updated refs, whether `flipCoin` was invoked (a flick), and whether
a `resetResult` debounce timeout was scheduled (a shake). -/
structure StepResult where
  state : DetectorState
  firedFlip : Bool
  scheduledReset : Bool

/-- The accelerometer listener body from src/App.js lines 172–217.
`flipInProgress` is `flipInProgressRef.current`, `now` is `Date.now()`.
Flick (line 189): `yDelta > 0.8`, more than 4000 ms since the last
flick, and no flip in progress — record the flick time, call `flipCoin`,
and `return` (shake detection is skipped on this sample).
Shake (lines 198–216): `Math.sqrt(x²+y²+z²) > 1.5` — stated here as
`x²+y²+z² > 1.5²`, equivalent since both sides are nonnegative — and
more than 1000 ms since the last shake: record the shake time and
schedule the debounced reset. -/
def accelStep (flipInProgress : Bool) (st : DetectorState)
    (sm : MotionSample) (now : Int) : StepResult :=
  let yDelta := sm.y - st.prevY
  let st1 : DetectorState := { st with prevY := sm.y }
  if yDelta > 0.8 ∧ now - st.lastFlickTime > 4000 ∧ flipInProgress = false then
    { state := { st1 with lastFlickTime := now },
      firedFlip := true, scheduledReset := false }
  else if sm.x * sm.x + sm.y * sm.y + sm.z * sm.z > (1.5 : ℚ) * 1.5
      ∧ now - st.lastShakeTime > 1000 then
    { state := { st1 with lastShakeTime := now },
      firedFlip := false, scheduledReset := true }
  else
    { state := st1, firedFlip := false, scheduledReset := false }

/-! ## Auxiliary definitions used by the statements -/

/-- Is a JSON value a string? -/
def isStrVal : Json → Bool
  | Json.str _ => true
  | _ => false

/-- Is a JSON value an (integer) number? -/
def isNumVal : Json → Bool
  | Json.num _ => true
  | _ => false

/-- Does a JSON value have a string-valued field of the given name? -/
def hasStrField (j : Json) (name : String) : Bool :=
  match j with
  | Json.obj fields => fields.any fun p => p.1 == name && isStrVal p.2
  | _ => false

/-- Does a JSON value have an integer-valued field of the given name? -/
def hasIntField (j : Json) (name : String) : Bool :=
  match j with
  | Json.obj fields => fields.any fun p => p.1 == name && isNumVal p.2
  | _ => false

/-- A `{label, timestamp}` object in the sense of the specification:
a JSON object with a string field `label` and an integer field
`timestamp`. -/
def isLabelEntry (j : Json) : Bool :=
  hasStrField j "label" && hasIntField j "timestamp"

/-- A `{side, timestamp}` object as actually written by
`saveFlipToHistory`: a JSON object with a string field `side` and an
integer field `timestamp`. -/
def isSideEntry (j : Json) : Bool :=
  hasStrField j "side" && hasIntField j "timestamp"

/-- The twelve-append scenario of the specification: entries labelled
`E1`..`E12` appended in order (with timestamps 1..12) starting from a
never-written slot. -/
def append12 : Slot :=
  (List.range 12).foldl
    (fun sl i =>
      (saveFlipToHistory (JsVal.str ("E" ++ toString (i + 1)))
        (Int.ofNat (i + 1)) sl).2)
    Slot.empty

/-- A single label-edit intent forwarded by the presentation surface:
typing into the Side A or Side B text input. -/
inductive LabelEdit where
  | editA (text : String)
  | editB (text : String)

/-- Apply one label edit through the corresponding handler. -/
def applyLabelEdit (s : AppState) : LabelEdit → AppState
  | LabelEdit.editA t => handleCustomSideAChange t s
  | LabelEdit.editB t => handleCustomSideBChange t s

/-! ## Helper lemmas -/

lemma toList_asString (l : List Char) : (List.asString l).toList = l := rfl

/-- Unfolding `saveFlipToHistory` at a non-empty string argument. -/
lemma saveFlipToHistory_str (s : String) (hs : s ≠ "") (now : Int) (slot : Slot) :
    saveFlipToHistory (JsVal.str s) now slot
      = (true, Slot.value (Json.arr
          ((mkEntry s now :: getHistory slot).take MAX_HISTORY_ENTRIES))) := by
  simp [saveFlipToHistory, jsTruthy, jsIsString, hs]

lemma getHistory_arr (l : List Json) :
    getHistory (Slot.value (Json.arr l)) = l := rfl

/-- Truncating a list keeps every element's property. -/
lemma all_take {p : Json → Bool} {l : List Json} (n : Nat)
    (h : l.all p = true) : (l.take n).all p = true := by
  rw [List.all_eq_true] at h ⊢
  exact fun x hx => h x (List.take_subset n l hx)

/-- The empty string trims to itself. -/
lemma jsTrim_empty : jsTrim "" = "" := rfl

/-- A string with a non-empty trim is itself non-empty. -/
lemma ne_empty_of_jsTrim_ne {s : String} (h : jsTrim s ≠ "") : s ≠ "" := by
  intro hs
  exact h (by rw [hs]; rfl)

/-- The first element surviving `dropWhile p` does not satisfy `p`. -/
lemma dropWhile_head_false {α : Type} {p : α → Bool} :
    ∀ {l : List α} {c : α} {cs : List α},
      List.dropWhile p l = c :: cs → p c = false := by
  intro l
  induction l with
  | nil => intro c cs h; simp [List.dropWhile] at h
  | cons a t ih =>
    intro c cs h
    rw [List.dropWhile_cons] at h
    split at h
    · exact ih h
    · next hp =>
      injection h with h1 _
      rw [← h1]
      simpa using hp

/-- JavaScript `trim()` is idempotent: the trimmed string has no leading
or trailing whitespace left to remove. -/
lemma jsTrim_idem (s : String) : jsTrim (jsTrim s) = jsTrim s := by
  unfold jsTrim
  rw [toList_asString]
  congr 1
  have hdw : List.dropWhile Char.isWhitespace
      (List.rdropWhile Char.isWhitespace
        (List.dropWhile Char.isWhitespace s.toList))
      = List.rdropWhile Char.isWhitespace
        (List.dropWhile Char.isWhitespace s.toList) := by
    cases hwe : List.rdropWhile Char.isWhitespace
        (List.dropWhile Char.isWhitespace s.toList) with
    | nil => simp
    | cons c cs =>
      have hpre := List.rdropWhile_prefix Char.isWhitespace
        (List.dropWhile Char.isWhitespace s.toList)
      rw [hwe] at hpre
      rcases hpre with ⟨r, hr⟩
      have hc : Char.isWhitespace c = false := dropWhile_head_false hr.symm
      simp [List.dropWhile_cons, hc]
  rw [hdw]
  exact List.rdropWhile_idempotent Char.isWhitespace _

/-- In custom mode the drawn result is the literal `'A'` or `'B'`,
whatever the labels are. -/
lemma flipResult_custom (s : AppState) (h3 : s.isCustomMode = true)
    (randomBelowHalf : Bool) :
    flipResult s randomBelowHalf = if randomBelowHalf then "A" else "B" := by
  simp [flipResult, h3]

lemma jsTrim_A : jsTrim "A" = "A" := rfl

lemma jsTrim_B : jsTrim "B" = "B" := rfl

/-- Resolving the history label for result `'A'`. -/
lemma flipHistoryLabel_A (s : AppState) :
    flipHistoryLabel s "A"
      = if jsTrim s.customSideA = "" then "A" else jsTrim s.customSideA := by
  by_cases ha : jsTrim s.customSideA = ""
  · simp [flipHistoryLabel, ha]
  · simp [flipHistoryLabel, ha, ne_empty_of_jsTrim_ne ha]

/-- Resolving the history label for result `'B'`. -/
lemma flipHistoryLabel_B (s : AppState) :
    flipHistoryLabel s "B"
      = if jsTrim s.customSideB = "" then "B" else jsTrim s.customSideB := by
  by_cases hb : jsTrim s.customSideB = ""
  · simp [flipHistoryLabel, hb]
  · simp [flipHistoryLabel, hb, ne_empty_of_jsTrim_ne hb]

/-- Unfolding a successful, failure-free run of `flipCoin`. -/
lemma flipCoin_none (s : AppState) (randomBelowHalf : Bool) (now : Int)
    (h1 : s.flipInProgress = false) (h2 : s.isFlipping = false) :
    flipCoin s randomBelowHalf now none
      = { s with side := some (flipResult s randomBelowHalf),
                 isFlipping := false, flipInProgress := false,
                 slot := (saveFlipToHistory
                   (JsVal.str (flipHistoryLabel s (flipResult s randomBelowHalf)))
                   now s.slot).2 } := by
  simp [flipCoin, h1, h2]

/-! ## Claim theorems -/

/-- C2: every call to `flipCoin` issued while a flip is rendering
(`isFlipping = true`, the spec's `phase = Flipping`) is a no-op: it
returns immediately with the state — outcome, mode, labels, guard and
storage — completely unchanged, and signals nothing (the function has no
error outcome), for any random draw, any clock value and any injected
failure. -/
theorem requestFlip_noop_while_flipping (s : AppState) (randomBelowHalf : Bool)
    (now : Int) (failAt : Option FailPoint) :
    flipCoin { s with isFlipping := true } randomBelowHalf now failAt
      = { s with isFlipping := true } := by
  simp [flipCoin]

/-- C5: `getHistory` is a total function (the source catches every throw)
and returns the empty sequence when the slot is unwritten (`getItem`
returned null), when the stored text is not valid JSON, and when the
decoded JSON value is not an array; when the decoded value is an array it
returns exactly that array. -/
theorem getHistory_defensive_decode :
    getHistory Slot.empty = [] ∧
    getHistory Slot.invalid = [] ∧
    (∀ j : Json, (∀ elems : List Json, j ≠ Json.arr elems) →
      getHistory (Slot.value j) = []) ∧
    (∀ elems : List Json, getHistory (Slot.value (Json.arr elems)) = elems) := by
  refine ⟨rfl, rfl, ?_, fun _ => rfl⟩
  intro j hj
  cases j with
  | arr elems => exact absurd rfl (hj elems)
  | null => rfl
  | bool b => rfl
  | num n => rfl
  | str s => rfl
  | obj fields => rfl

/-- Witness for C5 at a concrete non-array slot content. -/
theorem getHistory_defensive_decode_witness :
    (∀ elems : List Json, Json.str "junk" ≠ Json.arr elems) ∧
    getHistory (Slot.value (Json.str "junk")) = [] :=
  ⟨fun _ h => Json.noConfusion h,
   getHistory_defensive_decode.2.2.1 (Json.str "junk")
     (fun _ h => Json.noConfusion h)⟩

/-- C6: an unexpected failure at either uncaught-failure point of the
flip sequence (the two awaits, after the guard has been taken) lands in
the outer catch, which leaves the final state exactly the pre-flip state
with `isFlipping = false` and the `flipInProgress` guard released: the
phase is Idle, the system is not stuck, and the outcome, labels, mode
and storage slot are whatever they were before the failure. -/
theorem flip_failure_failsafe_reset (s : AppState) (randomBelowHalf : Bool)
    (now : Int) (fp : FailPoint) :
    flipCoin { s with isFlipping := false, flipInProgress := false }
        randomBelowHalf now (some fp)
      = { s with isFlipping := false, flipInProgress := false } := by
  simp [flipCoin]

/-- C7: `resetResult` and `toggleMode` invoked while `isFlipping = true`
(the spec's `phase = Flipping`) return the state unchanged: `side`
(lastOutcome), `isCustomMode` (mode) and both custom labels are
untouched. -/
theorem reset_and_toggle_noop_while_flipping (s : AppState) :
    resetResult { s with isFlipping := true } = { s with isFlipping := true } ∧
    toggleMode { s with isFlipping := true } = { s with isFlipping := true } := by
  exact ⟨by simp [resetResult], by simp [toggleMode]⟩

/-- C10: `saveFlipToHistory` called with anything that is not a
non-empty string — null, undefined, the empty string, a number or a
boolean — returns `false` and leaves the persisted slot exactly as it
was (the guard rejects before any storage access). -/
theorem saveFlip_rejects_invalid_side (now : Int) (slot : Slot) :
    saveFlipToHistory JsVal.null now slot = (false, slot) ∧
    saveFlipToHistory JsVal.undefined now slot = (false, slot) ∧
    saveFlipToHistory (JsVal.str "") now slot = (false, slot) ∧
    (∀ n : Int, saveFlipToHistory (JsVal.num n) now slot = (false, slot)) ∧
    (∀ b : Bool, saveFlipToHistory (JsVal.bool b) now slot = (false, slot)) := by
  refine ⟨rfl, rfl, rfl, fun n => ?_, fun b => ?_⟩
  · simp [saveFlipToHistory, jsTruthy, jsIsString]
  · simp [saveFlipToHistory, jsTruthy, jsIsString]

/-- C3: appending a (valid) entry prepends it to the current sequence
and truncates to the 10 most recent, preserving the order of the
survivors; and the spec's scenario — appending `E1`..`E12` to an empty
log — leaves exactly `[E12, E11, ..., E3]`, with `E1`/`E2` evicted. -/
theorem append_prepends_and_truncates :
    (∀ (s : String) (now : Int) (slot : Slot), s ≠ "" →
      (saveFlipToHistory (JsVal.str s) now slot).1 = true ∧
      getHistory (saveFlipToHistory (JsVal.str s) now slot).2
        = (mkEntry s now :: getHistory slot).take 10) ∧
    getHistory append12
      = [mkEntry "E12" 12, mkEntry "E11" 11, mkEntry "E10" 10, mkEntry "E9" 9,
         mkEntry "E8" 8, mkEntry "E7" 7, mkEntry "E6" 6, mkEntry "E5" 5,
         mkEntry "E4" 4, mkEntry "E3" 3] := by
  refine ⟨fun s now slot hs => ?_, rfl⟩
  rw [saveFlipToHistory_str s hs now slot]
  exact ⟨rfl, rfl⟩

/-- Witness for C3 at a concrete entry and slot. -/
theorem append_prepends_and_truncates_witness :
    ("Heads" : String) ≠ "" ∧
    ((saveFlipToHistory (JsVal.str "Heads") 5 Slot.empty).1 = true ∧
      getHistory (saveFlipToHistory (JsVal.str "Heads") 5 Slot.empty).2
        = (mkEntry "Heads" 5 :: getHistory Slot.empty).take 10) :=
  ⟨by decide, append_prepends_and_truncates.1 "Heads" 5 Slot.empty (by decide)⟩

/-- Truncating a cons at the history bound keeps the head and nine
survivors. -/
lemma take_bound_cons (e : Json) (l : List Json) :
    (e :: l).take MAX_HISTORY_ENTRIES = e :: l.take 9 := rfl

/-- C1, counterexample to the claim as stated. First: a successful
append to a never-written slot stores an entry that is **not** a
`{label, timestamp}` object — the string field is named `side`, not
`label`. Second: a successful append onto a slot whose stored array
holds a stray non-object element keeps that element, so not even "every
entry is a `{side, timestamp}` object" holds unconditionally. -/
theorem stored_entry_not_label_cex :
    ((saveFlipToHistory (JsVal.str "Heads") 1000 Slot.empty).1 = true ∧
      (getHistory (saveFlipToHistory (JsVal.str "Heads") 1000 Slot.empty).2).all
        isLabelEntry = false) ∧
    ((saveFlipToHistory (JsVal.str "Heads") 1000
        (Slot.value (Json.arr [Json.str "junk"]))).1 = true ∧
      (getHistory (saveFlipToHistory (JsVal.str "Heads") 1000
        (Slot.value (Json.arr [Json.str "junk"]))).2).all isSideEntry = false) :=
  ⟨⟨rfl, rfl⟩, ⟨rfl, rfl⟩⟩

/-- C1 (amended): every successful append whose pre-existing decoded
history consists of `{side, timestamp}` objects stores a JSON array of
`{side, timestamp}` objects — a string field named `side` and an integer
field `timestamp` — newest first (the new entry in front of the previous
survivors, order kept), of length at most 10. -/
theorem stored_history_shape (s : String) (now : Int) (slot : Slot)
    (hs : s ≠ "") (hw : (getHistory slot).all isSideEntry = true) :
    (saveFlipToHistory (JsVal.str s) now slot).1 = true ∧
    (saveFlipToHistory (JsVal.str s) now slot).2
      = Slot.value (Json.arr (mkEntry s now :: (getHistory slot).take 9)) ∧
    (mkEntry s now :: (getHistory slot).take 9).length ≤ 10 ∧
    (mkEntry s now :: (getHistory slot).take 9).all isSideEntry = true := by
  rw [saveFlipToHistory_str s hs now slot]
  have hhead : isSideEntry (mkEntry s now) = true := by
    simp [isSideEntry, mkEntry, hasStrField, hasIntField, isStrVal, isNumVal]
  refine ⟨rfl, by rw [take_bound_cons], ?_, ?_⟩
  · simp [List.length_take]
  · simp [List.all_cons, hhead, all_take 9 hw]

/-- Witness for C1 (amended) at a concrete entry and slot. -/
theorem stored_history_shape_witness :
    ("Heads" : String) ≠ "" ∧
    (getHistory (Slot.value (Json.arr [mkEntry "Tails" 1]))).all isSideEntry
      = true ∧
    ((saveFlipToHistory (JsVal.str "Heads") 5
        (Slot.value (Json.arr [mkEntry "Tails" 1]))).1 = true ∧
      (saveFlipToHistory (JsVal.str "Heads") 5
          (Slot.value (Json.arr [mkEntry "Tails" 1]))).2
        = Slot.value (Json.arr (mkEntry "Heads" 5 ::
            (getHistory (Slot.value (Json.arr [mkEntry "Tails" 1]))).take 9)) ∧
      (mkEntry "Heads" 5 ::
          (getHistory (Slot.value (Json.arr [mkEntry "Tails" 1]))).take 9).length
        ≤ 10 ∧
      (mkEntry "Heads" 5 ::
          (getHistory (Slot.value (Json.arr [mkEntry "Tails" 1]))).take 9).all
        isSideEntry = true) :=
  ⟨by decide, rfl,
   stored_history_shape "Heads" 5 (Slot.value (Json.arr [mkEntry "Tails" 1]))
     (by decide) rfl⟩

/-- C4: a completed custom-mode flip yields outcome `'A'` or `'B'`
whatever the labels contain, and the entry logged to history carries the
trimmed custom label of the chosen side when that trim is non-empty and
the canonical `"A"`/`"B"` name otherwise. -/
theorem custom_flip_outcome_and_label (s : AppState) (randomBelowHalf : Bool)
    (now : Int) (h1 : s.flipInProgress = false) (h2 : s.isFlipping = false)
    (h3 : s.isCustomMode = true) :
    (flipCoin s randomBelowHalf now none).side
        = some (if randomBelowHalf then "A" else "B") ∧
    ((flipCoin s randomBelowHalf now none).side = some "A" ∨
      (flipCoin s randomBelowHalf now none).side = some "B") ∧
    getHistory (flipCoin s randomBelowHalf now none).slot
      = Json.obj [("side", Json.str (if randomBelowHalf then
            (if jsTrim s.customSideA = "" then "A" else jsTrim s.customSideA)
          else
            (if jsTrim s.customSideB = "" then "B" else jsTrim s.customSideB))),
          ("timestamp", Json.num now)]
        :: (getHistory s.slot).take 9 := by
  have hrun := flipCoin_none s randomBelowHalf now h1 h2
  have hres := flipResult_custom s h3 randomBelowHalf
  have hside : (flipCoin s randomBelowHalf now none).side
      = some (if randomBelowHalf then "A" else "B") := by
    rw [hrun]; exact congrArg some hres
  refine ⟨hside, ?_, ?_⟩
  · cases randomBelowHalf
    · exact Or.inr hside
    · exact Or.inl hside
  · rw [hrun]
    show getHistory (saveFlipToHistory
        (JsVal.str (flipHistoryLabel s (flipResult s randomBelowHalf)))
        now s.slot).2 = _
    rw [hres]
    cases randomBelowHalf with
    | true =>
      rw [show (if (true : Bool) = true then ("A" : String) else "B") = "A"
          from rfl, flipHistoryLabel_A]
      by_cases ha : jsTrim s.customSideA = ""
      · rw [if_pos ha, saveFlipToHistory_str "A" (by decide) now s.slot]
        show (mkEntry "A" now :: getHistory s.slot).take MAX_HISTORY_ENTRIES = _
        rw [take_bound_cons]
        simp [mkEntry, ha, jsTrim_A]
      · rw [if_neg ha, saveFlipToHistory_str (jsTrim s.customSideA) ha now s.slot]
        show (mkEntry (jsTrim s.customSideA) now :: getHistory s.slot).take
            MAX_HISTORY_ENTRIES = _
        rw [take_bound_cons]
        simp [mkEntry, jsTrim_idem, ha]
    | false =>
      rw [show (if (false : Bool) = true then ("A" : String) else "B") = "B"
          from rfl, flipHistoryLabel_B]
      by_cases hb : jsTrim s.customSideB = ""
      · rw [if_pos hb, saveFlipToHistory_str "B" (by decide) now s.slot]
        show (mkEntry "B" now :: getHistory s.slot).take MAX_HISTORY_ENTRIES = _
        rw [take_bound_cons]
        simp [mkEntry, hb, jsTrim_B]
      · rw [if_neg hb, saveFlipToHistory_str (jsTrim s.customSideB) hb now s.slot]
        show (mkEntry (jsTrim s.customSideB) now :: getHistory s.slot).take
            MAX_HISTORY_ENTRIES = _
        rw [take_bound_cons]
        simp [mkEntry, jsTrim_idem, hb]

/-- Witness for C4: the spec scenario `labelA = "Pizza"`, `labelB = ""`.
A draw of SideA logs `"Pizza"`; a draw of SideB logs the fallback
`"B"`. -/
theorem custom_flip_outcome_and_label_witness :
    ((AppState.mk none false false true "Pizza" "" Slot.empty).flipInProgress
        = false ∧
      (AppState.mk none false false true "Pizza" "" Slot.empty).isFlipping
        = false ∧
      (AppState.mk none false false true "Pizza" "" Slot.empty).isCustomMode
        = true) ∧
    getHistory (flipCoin (AppState.mk none false false true "Pizza" "" Slot.empty)
        true 7 none).slot
      = Json.obj [("side", Json.str (if (true : Bool) then
            (if jsTrim "Pizza" = "" then "A" else jsTrim "Pizza")
          else
            (if jsTrim "" = "" then "B" else jsTrim ""))),
          ("timestamp", Json.num 7)]
        :: (getHistory Slot.empty).take 9 ∧
    getHistory (flipCoin (AppState.mk none false false true "Pizza" "" Slot.empty)
        false 7 none).slot
      = Json.obj [("side", Json.str (if (false : Bool) then
            (if jsTrim "Pizza" = "" then "A" else jsTrim "Pizza")
          else
            (if jsTrim "" = "" then "B" else jsTrim ""))),
          ("timestamp", Json.num 7)]
        :: (getHistory Slot.empty).take 9 :=
  ⟨⟨rfl, rfl, rfl⟩,
   (custom_flip_outcome_and_label
     (AppState.mk none false false true "Pizza" "" Slot.empty) true 7
     rfl rfl rfl).2.2,
   (custom_flip_outcome_and_label
     (AppState.mk none false false true "Pizza" "" Slot.empty) false 7
     rfl rfl rfl).2.2⟩

/-- The flick branch of the accelerometer listener fires exactly under
its three-part condition. -/
lemma accelStep_fired_iff (flipInProgress : Bool) (st : DetectorState)
    (sm : MotionSample) (now : Int) :
    (accelStep flipInProgress st sm now).firedFlip = true ↔
      (sm.y - st.prevY > 0.8 ∧ now - st.lastFlickTime > 4000 ∧
        flipInProgress = false) := by
  simp only [accelStep]
  split
  · next h => simpa using h
  · next h =>
    split
    · simpa using h
    · simpa using h

/-- C8: for every motion sample with `yDelta > 0.8`, the listener fires
`flipCoin` exactly when more than 4000 ms have passed since the last
flick and no flip is in progress, and a firing sample short-circuits —
no shake reset is scheduled and the last-shake timestamp is untouched.
The spec scenario: two samples of `yDelta = 0.9` arriving 500 ms apart
with no flip in progress fire exactly once (the first fires, the second
is inside the 4000 ms debounce). -/
theorem flick_debounce_and_short_circuit :
    (∀ (flipInProgress : Bool) (st : DetectorState) (sm : MotionSample)
        (now : Int),
      sm.y - st.prevY > 0.8 →
        ((accelStep flipInProgress st sm now).firedFlip = true ↔
          (now - st.lastFlickTime > 4000 ∧ flipInProgress = false)) ∧
        ((accelStep flipInProgress st sm now).firedFlip = true →
          (accelStep flipInProgress st sm now).scheduledReset = false ∧
          (accelStep flipInProgress st sm now).state.lastShakeTime
            = st.lastShakeTime)) ∧
    ((accelStep false ⟨0, 0, 0⟩ ⟨0, 0.9, 0⟩ 1000000).firedFlip = true ∧
      (accelStep false (accelStep false ⟨0, 0, 0⟩ ⟨0, 0.9, 0⟩ 1000000).state
        ⟨0, 1.8, 0⟩ 1000500).firedFlip = false) := by
  constructor
  · intro flipInProgress st sm now hy
    constructor
    · rw [accelStep_fired_iff]
      exact ⟨fun h => h.2, fun h => ⟨hy, h⟩⟩
    · intro hf
      rw [accelStep_fired_iff] at hf
      simp [accelStep, hf.1, hf.2.1, hf.2.2]
  · constructor
    · norm_num [accelStep]
    · norm_num [accelStep]

/-- Witness for C8 at the first scenario sample. -/
theorem flick_debounce_and_short_circuit_witness :
    ((⟨0, 0.9, 0⟩ : MotionSample).y - (⟨0, 0, 0⟩ : DetectorState).prevY > 0.8) ∧
    ((accelStep false ⟨0, 0, 0⟩ ⟨0, 0.9, 0⟩ 1000000).firedFlip = true ↔
      ((1000000 : Int) - (⟨0, 0, 0⟩ : DetectorState).lastFlickTime > 4000 ∧
        (false : Bool) = false)) :=
  ⟨by norm_num,
   (flick_debounce_and_short_circuit.1 false ⟨0, 0, 0⟩ ⟨0, 0.9, 0⟩ 1000000
     (by norm_num)).1⟩

/-- The substring handler stores at most `n` characters. -/
lemma jsSubstring0_length_le (t : String) (n : Nat) :
    (jsSubstring0 t n).length ≤ n := by
  show (t.toList.take n).length ≤ n
  rw [List.length_take]
  exact min_le_left _ _

/-- C9: a label edit stores exactly the first 150 characters of the
typed text — character for character, so no whitespace trimming — and
leaves the other label alone; consequently after any sequence of label
edits both labels are at most 150 characters long. -/
theorem label_edit_truncates :
    (∀ (t : String) (s : AppState),
      (handleCustomSideAChange t s).customSideA.toList = t.toList.take 150 ∧
      (handleCustomSideAChange t s).customSideB = s.customSideB ∧
      (handleCustomSideBChange t s).customSideB.toList = t.toList.take 150 ∧
      (handleCustomSideBChange t s).customSideA = s.customSideA) ∧
    (∀ (edits : List LabelEdit) (s : AppState),
      s.customSideA.length ≤ 150 → s.customSideB.length ≤ 150 →
      (edits.foldl applyLabelEdit s).customSideA.length ≤ 150 ∧
      (edits.foldl applyLabelEdit s).customSideB.length ≤ 150) := by
  constructor
  · exact fun t s => ⟨rfl, rfl, rfl, rfl⟩
  · intro edits
    induction edits with
    | nil => exact fun s hA hB => ⟨hA, hB⟩
    | cons e rest ih =>
      intro s hA hB
      cases e with
      | editA t => exact ih _ (jsSubstring0_length_le t 150) hB
      | editB t => exact ih _ hA (jsSubstring0_length_le t 150)

/-- Witness for C9: one edit of each label applied to the initial state
(empty labels). -/
theorem label_edit_truncates_witness :
    (AppState.mk none false false false "" "" Slot.empty).customSideA.length
        ≤ 150 ∧
    (AppState.mk none false false false "" "" Slot.empty).customSideB.length
        ≤ 150 ∧
    (([LabelEdit.editA "hello world", LabelEdit.editB "  spaces  "].foldl
        applyLabelEdit
        (AppState.mk none false false false "" "" Slot.empty)).customSideA.length
      ≤ 150 ∧
     ([LabelEdit.editA "hello world", LabelEdit.editB "  spaces  "].foldl
        applyLabelEdit
        (AppState.mk none false false false "" "" Slot.empty)).customSideB.length
      ≤ 150) :=
  ⟨by decide, by decide,
   label_edit_truncates.2 [LabelEdit.editA "hello world",
     LabelEdit.editB "  spaces  "]
     (AppState.mk none false false false "" "" Slot.empty)
     (by decide) (by decide)⟩

end DecisionCoin
